import Mathlib

/-!
Verification of the Online Course Management System services.

This file gives a shallow embedding, in Lean, of the data model and the
pure computational core of the repository (an Angular administrative
dashboard over three REST collections: courses, students, enrollments),
and proves or refutes the behavioural claims made by its specification.

Modelling conventions:
- JavaScript numbers are modelled as exact rationals; `Math.round` is
  modelled as `jsRound x = floor (x + 1/2)`, which agrees with the
  JavaScript semantics of rounding half toward positive infinity.
- Enum string values (enrollment status, student status) are modelled as
  inductive types; course categories and levels are carried as strings,
  which is also how the aggregation code treats them (it receives them
  untyped and uses them as map keys).
- Date values are modelled abstractly: a field that is either a string
  or a structured date is a `DS D` value; the `new Date(string)`
  constructor is an arbitrary parameter `parse : String -> D`.
  Where only comparison of already-transformed dates matters
  (the dashboard month buckets) timestamps are rationals.
- `Observable` pipelines are modelled by their synchronous result: an
  HTTP response is an `Except String` value, a `pipe(tap, map,
  catchError)` chain is a function from the response and current cache
  to the produced result, new cache and whether an error was logged.
-/

namespace OCMS

/-- JavaScript `Math.round`: rounds to the nearest integer, half toward
positive infinity. -/
def jsRound (x : ℚ) : ℤ := ⌊x + 1 / 2⌋

/-- The repository idiom `Math.round(x * 100) / 100`: round to two
decimal places. -/
def round2 (x : ℚ) : ℚ := (jsRound (x * 100) : ℚ) / 100

/-- Enrollment status enumeration, from `enrollment.model.ts`
(`EnrollmentStatus`): values Enrolled, In Progress, Completed, Dropped,
Suspended, Pending. -/
inductive EnrollmentStatus where
  | enrolled
  | inProgress
  | completed
  | dropped
  | suspended
  | pending
deriving DecidableEq, Repr

/-- Student status enumeration, from `student.model.ts`
(`StudentStatus`). -/
inductive StudentStatus where
  | active
  | inactive
  | suspended
  | graduated
deriving DecidableEq, Repr

/-- Education level enumeration, from `student.model.ts`
(`EducationLevel`). -/
inductive EducationLevel where
  | highSchool
  | associate
  | bachelor
  | master
  | doctorate
  | other
deriving DecidableEq, Repr

/-- An enrollment after date transformation, restricted to the fields
the analytics code reads (`enrollment.model.ts`, `Enrollment`):
`enrollmentDate` is an abstract timestamp, `grade` is optional. -/
structure Enrollment where
  id : ℤ
  courseId : ℤ
  studentId : ℤ
  enrollmentDate : ℚ
  status : EnrollmentStatus
  progress : ℚ
  grade : Option ℚ
deriving DecidableEq, Repr

/-- A course restricted to the fields the analytics code reads
(`course.model.ts`, `Course`): the category is the enum string value. -/
structure Course where
  id : ℤ
  category : String
  price : ℚ
deriving DecidableEq, Repr

/-- From `EnrollmentService.getEnrollmentStats`: an enrollment is active
when its status is Enrolled or In Progress. -/
def isActiveEnrollment (e : Enrollment) : Bool :=
  decide (e.status = EnrollmentStatus.enrolled) ||
    decide (e.status = EnrollmentStatus.inProgress)

/-- From `EnrollmentService.createEnrollment`: the status given to every
newly created enrollment is `EnrollmentStatus.ENROLLED`. -/
def createEnrollmentStatus : EnrollmentStatus := EnrollmentStatus.enrolled

/-- From `EnrollmentFormComponent.validateDuplicateEnrollment`
(enrollment-quick-dialog.component.ts): the linear scan that decides
whether the form is marked with a duplicate error.  The source runs
`enrollments.find(e => e.courseId === courseId && e.studentId ===
studentId && (e.status === EnrollmentStatus.IN_PROGRESS || e.status ===
EnrollmentStatus.PENDING))` and sets the error exactly when a match is
found. -/
def validateDuplicateEnrollment (enrollments : List Enrollment)
    (courseId studentId : ℤ) : Bool :=
  (enrollments.find? (fun e =>
    decide (e.courseId = courseId) && decide (e.studentId = studentId) &&
      (decide (e.status = EnrollmentStatus.inProgress) ||
        decide (e.status = EnrollmentStatus.pending)))).isSome

/-- A concrete existing enrollment used to exercise the duplicate check:
course 1, student 1, status Enrolled (the status every newly created
enrollment receives). -/
def c1Enrollment : Enrollment :=
  { id := 1, courseId := 1, studentId := 1, enrollmentDate := 0
  , status := EnrollmentStatus.enrolled, progress := 0, grade := none }

/-- Enrollment statistics record, from `enrollment.model.ts`
(`EnrollmentStats`). -/
structure EnrollmentStats where
  totalEnrollments : ℕ
  activeEnrollments : ℕ
  completedEnrollments : ℕ
  droppedEnrollments : ℕ
  averageProgress : ℚ
  averageGrade : ℚ
  completionRate : ℚ
deriving DecidableEq, Repr

/-- `EnrollmentService.getEnrollmentStats`, computed over a given list
of enrollments (the service applies it to the fetched collection).
Counts are `filter`/`length`, sums are `reduce`, and the three derived
averages are rounded to two decimal places.  The source expression
`e.progress || 0` is the identity on an exact rational progress value,
and `e.grade !== undefined` selects enrollments whose grade is present;
`(e.grade || 0)` then reads that grade. -/
def getEnrollmentStats (enrollments : List Enrollment) : EnrollmentStats :=
  let total := enrollments.length
  let active := (enrollments.filter (fun e =>
    decide (e.status = EnrollmentStatus.enrolled) ||
      decide (e.status = EnrollmentStatus.inProgress))).length
  let completed := (enrollments.filter (fun e =>
    decide (e.status = EnrollmentStatus.completed))).length
  let dropped := (enrollments.filter (fun e =>
    decide (e.status = EnrollmentStatus.dropped))).length
  let totalProgress := enrollments.foldl (fun sum e => sum + e.progress) 0
  let avgProgress : ℚ := if 0 < total then totalProgress / (total : ℚ) else 0
  let graded := enrollments.filter (fun e => e.grade.isSome)
  let totalGrade := graded.foldl (fun sum e => sum + e.grade.getD 0) 0
  let avgGrade : ℚ :=
    if 0 < graded.length then totalGrade / (graded.length : ℚ) else 0
  let completionRate : ℚ :=
    if 0 < total then ((completed : ℚ) / (total : ℚ)) * 100 else 0
  { totalEnrollments := total
  , activeEnrollments := active
  , completedEnrollments := completed
  , droppedEnrollments := dropped
  , averageProgress := round2 avgProgress
  , averageGrade := round2 avgGrade
  , completionRate := round2 completionRate }

/-- `DashboardComponent.calculatePercentChange`: percent change between
two totals, with explicit handling of a zero previous value. -/
def calculatePercentChange (previous current : ℚ) : ℚ :=
  if previous = 0 then
    if current = 0 then 0
    else if 0 < current then 100 else -100
  else ((current - previous) / previous) * 100

/-- The percent-change behaviour exactly as the specification claim
words it: 0 when both are zero, 100 when previous is zero and current
is positive, and the ratio formula otherwise (Lean evaluates the
division by a zero previous to 0). -/
def claimedPercentChange (previous current : ℚ) : ℚ :=
  if previous = 0 ∧ current = 0 then 0
  else if previous = 0 ∧ 0 < current then 100
  else ((current - previous) / previous) * 100

/-- The percent-change behaviour as amended: identical to the claim
except that a zero previous value with a negative current value yields
-100, as the source explicitly does. -/
def amendedPercentChange (previous current : ℚ) : ℚ :=
  if previous = 0 ∧ current = 0 then 0
  else if previous = 0 ∧ 0 < current then 100
  else if previous = 0 ∧ current < 0 then -100
  else ((current - previous) / previous) * 100

/-- `DashboardComponent.calculateRate`: `!total || total <= 0` guards
the division, otherwise `Math.round((part / total) * 100)`. -/
def calculateRate (part total : ℚ) : ℤ :=
  if total = 0 ∨ total ≤ 0 then 0 else jsRound ((part / total) * 100)

/-! ### Cache updates (C2)

`CourseService`, `StudentService` and `EnrollmentService` hold one
`BehaviorSubject` each with the entity array.  The cache-writing code of
the three services is identical up to the entity type: the fetched
collection replaces the cache on load, `create` appends the transformed
created record, `update`/`patch` overwrite the record at the index
`findIndex` returns (doing nothing when it is -1), and `delete` filters
the record out.  The updates are embedded generically in the element
type, with the id accessor and the date transform as parameters. -/

/-- Cache write performed by `loadAllStudents` / `loadAllCourses` /
`loadAllEnrollments`: the cache becomes the fetched collection with the
date transform applied to every record. -/
def loadCacheUpdate (transform : α → α) (fetched : List α) : List α :=
  fetched.map transform

/-- Cache write performed by the `tap` of `createStudent` /
`createCourse` / `createEnrollment`:
`next([...current, this.transform(created)])`. -/
def createCacheUpdate (transform : α → α) (cache : List α) (created : α) :
    List α :=
  cache ++ [transform created]

/-- Cache write performed by the `tap` of `updateStudent` /
`patchStudent` and their course and enrollment counterparts:
`findIndex` on the id, and when found, overwrite that slot with the
transformed response. -/
def updateCacheUpdate (idOf : α → ℤ) (transform : α → α) (id : ℤ)
    (cache : List α) (updated : α) : List α :=
  match cache.findIdx? (fun x => decide (idOf x = id)) with
  | some i => cache.set i (transform updated)
  | none => cache

/-- Cache write performed by the `tap` of `deleteStudent` /
`deleteCourse` / `deleteEnrollment`:
`next(current.filter(x => x.id !== id))`. -/
def deleteCacheUpdate (idOf : α → ℤ) (id : ℤ) (cache : List α) : List α :=
  cache.filter (fun x => decide (idOf x ≠ id))

/-- Replacement of the first record with the given id by `y`, leaving
the list unchanged when no record matches: the specification-level
description of the update-operation cache write. -/
def replaceFirstWith (idOf : α → ℤ) (id : ℤ) (y : α) : List α → List α
  | [] => []
  | x :: xs =>
    if idOf x = id then y :: xs else x :: replaceFirstWith idOf id y xs

/-! ### Enrollment trends (C3) -/

/-- One row of the dashboard trends table, from `common.model.ts`
(`EnrollmentTrend`).  The month is identified by its absolute month
index (the source renders a locale label for the same month). -/
structure EnrollmentTrend where
  month : ℤ
  enrollments : ℕ
  completions : ℕ
  revenue : ℚ
deriving DecidableEq, Repr

/-- The revenue join of `DashboardService`:
`courses.find(c => c.id === enrollment.courseId)` and the price of the
found course, or 0 when no course matches. -/
def priceOfCourse (courses : List Course) (courseId : ℤ) : ℚ :=
  match courses.find? (fun c => decide (c.id = courseId)) with
  | some c => c.price
  | none => 0

/-- One loop iteration of
`DashboardService.calculateEnrollmentTrends`, for the month with index
`k`: filter the enrollments whose date lies in `[monthStart k,
monthStart (k+1))`, count them, count the completed ones among them,
and sum the joined course prices, rounding the sum to two decimals.
`monthStart k` is the timestamp of the first day of month `k`. -/
def trendForMonth (monthStart : ℤ → ℚ) (courses : List Course)
    (enrollments : List Enrollment) (k : ℤ) : EnrollmentTrend :=
  let monthEnrollments := enrollments.filter (fun e =>
    decide (monthStart k ≤ e.enrollmentDate) &&
      decide (e.enrollmentDate < monthStart (k + 1)))
  { month := k
  , enrollments := monthEnrollments.length
  , completions := (monthEnrollments.filter (fun e =>
      decide (e.status = EnrollmentStatus.completed))).length
  , revenue := round2 (monthEnrollments.foldl
      (fun sum e => sum + priceOfCourse courses e.courseId) 0) }

/-- `DashboardService.calculateEnrollmentTrends`: the loop
`for (let i = 5; i >= 0; i--)` pushes the bucket of month
`currentMonth - i`, so iteration `j` of the produced list (0-based)
handles month `currentMonth - (5 - j)`. -/
def calculateEnrollmentTrends (monthStart : ℤ → ℚ) (currentMonth : ℤ)
    (enrollments : List Enrollment) (courses : List Course) :
    List EnrollmentTrend :=
  (List.range 6).map (fun j =>
    trendForMonth monthStart courses enrollments
      (currentMonth - (5 - (j : ℤ))))

/-- The trend bucket of month `k` exactly as the specification claim
describes it: counts by `countP` over the month predicate, completions
by the month predicate conjoined with the Completed status, and revenue
as the rounded sum of the joined prices of the bucket members. -/
def specTrendForMonth (monthStart : ℤ → ℚ) (courses : List Course)
    (enrollments : List Enrollment) (k : ℤ) : EnrollmentTrend :=
  { month := k
  , enrollments := enrollments.countP (fun e =>
      decide (monthStart k ≤ e.enrollmentDate ∧
        e.enrollmentDate < monthStart (k + 1)))
  , completions := enrollments.countP (fun e =>
      decide ((monthStart k ≤ e.enrollmentDate ∧
        e.enrollmentDate < monthStart (k + 1)) ∧
          e.status = EnrollmentStatus.completed))
  , revenue := round2 (((enrollments.filter (fun e =>
      decide (monthStart k ≤ e.enrollmentDate ∧
        e.enrollmentDate < monthStart (k + 1)))).map
          (fun e => priceOfCourse courses e.courseId)).sum) }

/-! ### Category distribution (C4) -/

/-- One row of the category distribution, from `common.model.ts`
(`CategoryStats`). -/
structure CategoryStats where
  category : String
  courseCount : ℕ
  enrollmentCount : ℕ
  revenue : ℚ
deriving DecidableEq, Repr

/-- The per-course enrollment count of
`DashboardService.calculateCategoryDistribution`:
`enrollments.filter(e => e.courseId === course.id).length`. -/
def enrollCountFor (enrollments : List Enrollment) (courseId : ℤ) : ℕ :=
  (enrollments.filter (fun e => decide (e.courseId = courseId))).length

/-- One iteration of the `courses.forEach` loop of
`calculateCategoryDistribution`, with the JavaScript `Map` (whose keys
stay in insertion order) embedded as a list of records with pairwise
distinct categories: a missing category appends a fresh record, and the
record of the category of the course is incremented by one course, the
enrollments of the course, and the corresponding revenue. -/
def categoryStep (enrollments : List Enrollment) (acc : List CategoryStats)
    (course : Course) : List CategoryStats :=
  let n := enrollCountFor enrollments course.id
  if acc.any (fun s => decide (s.category = course.category)) then
    acc.map (fun s =>
      if s.category = course.category then
        { s with courseCount := s.courseCount + 1
               , enrollmentCount := s.enrollmentCount + n
               , revenue := s.revenue + (n : ℚ) * course.price }
      else s)
  else
    acc ++ [{ category := course.category, courseCount := 1
            , enrollmentCount := n, revenue := (n : ℚ) * course.price }]

/-- Stable insertion into a list sorted by decreasing
`enrollmentCount`: the new record goes before the first strictly
smaller one and after everything greater or equal, which is the
behaviour of the stable `Array.prototype.sort` with comparator
`(a, b) => b.enrollmentCount - a.enrollmentCount`. -/
def insertByEnrollmentsDesc (x : CategoryStats) :
    List CategoryStats → List CategoryStats
  | [] => [x]
  | y :: ys =>
    if y.enrollmentCount < x.enrollmentCount then x :: y :: ys
    else y :: insertByEnrollmentsDesc x ys

/-- Stable sort by decreasing `enrollmentCount` (left-to-right
insertion sort, which is stable). -/
def sortByEnrollmentsDesc (l : List CategoryStats) : List CategoryStats :=
  l.foldl (fun acc x => insertByEnrollmentsDesc x acc) []

/-- `DashboardService.calculateCategoryDistribution`: fold the
`forEach` loop over the courses starting from the empty map, sort the
collected records by decreasing enrollment count, and round each
revenue to two decimals. -/
def calculateCategoryDistribution (courses : List Course)
    (enrollments : List Enrollment) : List CategoryStats :=
  (sortByEnrollmentsDesc (courses.foldl (categoryStep enrollments) [])).map
    (fun s => { s with revenue := round2 s.revenue })

/-- The distinct course categories in order of first occurrence — the
key set of the JavaScript `Map`, whose iteration order is insertion
order. -/
def categoriesInOrder (courses : List Course) : List String :=
  courses.foldl
    (fun acc c => if c.category ∈ acc then acc else acc ++ [c.category]) []

/-- The category record the amended claim describes for category `cat`:
the course count of the category, and the enrollment count and revenue
as sums over the courses of the category of the per-course enrollment
count and of price times that count. -/
def specCategoryStats (courses : List Course) (enrollments : List Enrollment)
    (cat : String) : CategoryStats :=
  let catCourses := courses.filter (fun c => decide (c.category = cat))
  { category := cat
  , courseCount := catCourses.length
  , enrollmentCount :=
      (catCourses.map (fun c => enrollCountFor enrollments c.id)).sum
  , revenue :=
      (catCourses.map (fun c =>
        c.price * (enrollCountFor enrollments c.id : ℚ))).sum }

/-- A concrete course for the C4 counterexample. -/
def c4Course : Course := { id := 1, category := "Data Science", price := 10 }

/-- A concrete enrollment referencing `c4Course` for the C4
counterexample. -/
def c4Enrollment : Enrollment :=
  { id := 1, courseId := 1, studentId := 1, enrollmentDate := 0
  , status := EnrollmentStatus.enrolled, progress := 0, grade := none }

/-! ### Date transforms (C7)

A date-carrying field arrives from the HTTP layer either as a string or
as an already structured date (`Date | string` in the models), and the
optional ones may be absent.  `new Date(s)` is the abstract parameter
`parse`. -/

/-- A value of TypeScript type `Date | string`. -/
inductive DS (D : Type) where
  | str (s : String)
  | date (d : D)
deriving DecidableEq, Repr

/-- Address record, from `student.model.ts` (`Address`). -/
structure Address where
  street : Option String
  city : String
  state : Option String
  country : String
  zipCode : Option String
deriving DecidableEq, Repr

/-- The full student record, from `student.model.ts` (`Student`). -/
structure StudentRec (D : Type) where
  id : ℤ
  name : String
  email : String
  phone : Option String
  dateOfBirth : Option (DS D)
  address : Option Address
  enrolledCourses : List ℤ
  createdAt : DS D
  updatedAt : Option (DS D)
  status : StudentStatus
  profileImage : Option String
  bio : Option String
  educationLevel : Option EducationLevel
  interests : Option (List String)
  totalCoursesCompleted : Option ℚ
  averageGrade : Option ℚ
deriving DecidableEq

/-- The full course record, from `course.model.ts` (`Course`); category
and level carry the enum string values. -/
structure CourseRec (D : Type) where
  id : ℤ
  title : String
  description : String
  category : String
  level : String
  duration : ℚ
  price : ℚ
  instructor : String
  thumbnail : Option String
  createdAt : DS D
  updatedAt : Option (DS D)
  popularity : ℚ
  enrollmentCount : ℚ
  isActive : Bool
  tags : Option (List String)
  prerequisites : Option (List String)
  learningOutcomes : Option (List String)
  maxStudents : Option ℚ
deriving DecidableEq

/-- The full enrollment record, from `enrollment.model.ts`
(`Enrollment`). -/
structure EnrollmentRec (D : Type) where
  id : ℤ
  courseId : ℤ
  studentId : ℤ
  enrollmentDate : DS D
  completionDate : Option (DS D)
  status : EnrollmentStatus
  progress : ℚ
  grade : Option ℚ
  certificateIssued : Option Bool
  lastAccessedDate : Option (DS D)
  totalHoursSpent : Option ℚ
  completedModules : Option ℚ
  totalModules : Option ℚ
  feedback : Option String
  rating : Option ℚ
deriving DecidableEq

/-- The transform pattern of a required date field:
`typeof x === 'string' ? new Date(x) : x`. -/
def convertRequiredDate (parse : String → D) : DS D → DS D
  | DS.str s => DS.date (parse s)
  | DS.date d => DS.date d

/-- JavaScript truthiness of an optional `Date | string` value: absent
values and the empty string are falsy, structured dates and non-empty
strings are truthy. -/
def jsTruthyDS : Option (DS D) → Bool
  | none => false
  | some (DS.str s) => decide (s ≠ "")
  | some (DS.date _) => true

/-- `typeof x === 'string'` on an optional `Date | string` value. -/
def jsIsStringDS : Option (DS D) → Bool
  | some (DS.str _) => true
  | _ => false

/-- The transform pattern of an optional date field:
`x && typeof x === 'string' ? new Date(x) : x`. -/
def convertOptionalDate (parse : String → D) (x : Option (DS D)) :
    Option (DS D) :=
  if jsTruthyDS x && jsIsStringDS x then
    match x with
    | some (DS.str s) => some (DS.date (parse s))
    | other => other
  else x

/-- The optional-field conversion exactly as the amended claim words
it: a non-empty string is parsed into a date, the empty string (being
falsy) is left as it is, and absent or already structured values are
unchanged. -/
def specConvertOptionalDate (parse : String → D) :
    Option (DS D) → Option (DS D)
  | some (DS.str s) =>
    if s = "" then some (DS.str s) else some (DS.date (parse s))
  | x => x

/-- `StudentService.transformStudent`: convert `createdAt`,
`updatedAt`, `dateOfBirth`; spread everything else unchanged. -/
def transformStudent (parse : String → D) (s : StudentRec D) : StudentRec D :=
  { s with
    createdAt := convertRequiredDate parse s.createdAt
    updatedAt := convertOptionalDate parse s.updatedAt
    dateOfBirth := convertOptionalDate parse s.dateOfBirth }

/-- `CourseService.transformCourse`: convert `createdAt`, `updatedAt`;
spread everything else unchanged. -/
def transformCourse (parse : String → D) (c : CourseRec D) : CourseRec D :=
  { c with
    createdAt := convertRequiredDate parse c.createdAt
    updatedAt := convertOptionalDate parse c.updatedAt }

/-- `EnrollmentService.transformEnrollment`: convert `enrollmentDate`,
`completionDate`, `lastAccessedDate`; spread everything else
unchanged. -/
def transformEnrollment (parse : String → D) (e : EnrollmentRec D) :
    EnrollmentRec D :=
  { e with
    enrollmentDate := convertRequiredDate parse e.enrollmentDate
    completionDate := convertOptionalDate parse e.completionDate
    lastAccessedDate := convertOptionalDate parse e.lastAccessedDate }

/-- A concrete student record whose `updatedAt` arrived as the empty
string, for the C7 counterexample. -/
def c7Student : StudentRec Unit :=
  { id := 1, name := "Ada", email := "ada@example.com", phone := none
  , dateOfBirth := none, address := none, enrolledCourses := []
  , createdAt := DS.date (), updatedAt := some (DS.str "")
  , status := StudentStatus.active, profileImage := none, bio := none
  , educationLevel := none, interests := none
  , totalCoursesCompleted := none, averageGrade := none }

/-! ### Error handling (C6)

An HTTP response is an `Except String` value carrying the error
message.  A service operation built as `pipe(tap(cacheWrite), map(g),
catchError(handleError))` becomes a function from the response and the
current cache to the produced result, the new cache and whether an
error was logged to the console. -/

/-- The `handleError` shared by `StudentService`, `CourseService` and
`EnrollmentService`: log the error and rethrow
`new Error(error.message || 'Server error')` (an absent message is
modelled by the falsy empty string). -/
def handleError (message : String) : String :=
  if message = "" then "Server error" else message

/-- Result of one service operation: the value or error handed to the
caller, the cache after the operation, and whether the error branch
logged to the console. -/
structure ServiceStepResult (α β : Type) where
  result : Except String β
  cache : List α
  logged : Bool

/-- `StudentService.createStudent` as a step function: on success the
`tap` appends the transformed created record to the cache and the `map`
hands the transformed record to the caller; on failure `catchError`
logs and rethrows via `handleError` and the cache write never runs. -/
def studentCreateStep (parse : String → D)
    (response : Except String (StudentRec D)) (cache : List (StudentRec D)) :
    ServiceStepResult (StudentRec D) (StudentRec D) :=
  match response with
  | Except.ok created =>
    { result := Except.ok (transformStudent parse created)
    , cache := cache ++ [transformStudent parse created]
    , logged := false }
  | Except.error m =>
    { result := Except.error (handleError m), cache := cache, logged := true }

/-- `DashboardService.getDashboardStats` error handling: the forkJoin
result is mapped by the aggregate computation, and `catchError` logs
and replaces any failure by `of(this.getEmptyDashboardStats())`.  The
success computation and the empty-stats record are parameters; the
boolean records whether the error branch logged. -/
def dashboardCatch (compute : ι → σ) (empty : σ)
    (response : Except String ι) : Except String σ × Bool :=
  match response with
  | Except.ok v => (Except.ok (compute v), false)
  | Except.error _ => (Except.ok empty, true)

/-! ### Enrollment patches (C9, C10) -/

/-- A `Partial<Enrollment>` patch body as built by `updateProgress`,
`updateStatus` and `submitGrade`: every field is optional and absent by
default; date fields are abstract timestamps. -/
structure EnrollmentPatch where
  progress : Option ℚ := none
  lastAccessedDate : Option ℚ := none
  status : Option EnrollmentStatus := none
  completionDate : Option ℚ := none
  grade : Option ℚ := none
  certificateIssued : Option Bool := none
deriving DecidableEq, Repr

/-- The patch body of `EnrollmentService.updateProgress` at current
time `now`: progress and `lastAccessedDate` always, then status
Completed plus a completion date when progress is 100, status In
Progress when progress is positive, and no status field otherwise. -/
def updateProgressPatch (now progress : ℚ) : EnrollmentPatch :=
  let base : EnrollmentPatch :=
    { progress := some progress, lastAccessedDate := some now }
  if progress = 100 then
    { base with status := some EnrollmentStatus.completed
              , completionDate := some now }
  else if 0 < progress then
    { base with status := some EnrollmentStatus.inProgress }
  else base

/-- The patch body of `EnrollmentService.updateStatus` at current time
`now`: the status always, plus completion date and progress 100 when
the status is Completed. -/
def updateStatusPatch (now : ℚ) (status : EnrollmentStatus) :
    EnrollmentPatch :=
  if status = EnrollmentStatus.completed then
    { status := some status, completionDate := some now
    , progress := some 100 }
  else { status := some status }

/-- The patch body of `EnrollmentService.submitGrade`: the grade and
`certificateIssued === (grade >= 70)`, nothing else. -/
def submitGradePatch (grade : ℚ) : EnrollmentPatch :=
  { grade := some grade, certificateIssued := some (decide (70 ≤ grade)) }

/-! ## Theorems -/

/-- Claim C1 (code bug): the duplicate-enrollment scan is meant to
reject a second enrollment while an existing one is active, active
meaning status Enrolled or In Progress (the definition
`getEnrollmentStats` uses, and Enrolled is the status every newly
created enrollment receives).  Evaluated on an existing active
enrollment with status Enrolled and the same course and student, the
scan reports no duplicate, because the source tests
`IN_PROGRESS || PENDING` instead of `ENROLLED || IN_PROGRESS`. -/
theorem c1_duplicate_check_misses_enrolled_status :
    validateDuplicateEnrollment [c1Enrollment] 1 1 = false ∧
    isActiveEnrollment c1Enrollment = true ∧
    createEnrollmentStatus = EnrollmentStatus.enrolled := by
  refine ⟨by decide, by decide, rfl⟩

/-- Claim C10: `submitGrade` issues a patch whose grade field is the
given grade, whose `certificateIssued` field is true exactly when the
grade is at least 70 and false otherwise, and which contains no other
field. -/
theorem c10_submit_grade_patch (g : ℚ) :
    (submitGradePatch g).grade = some g ∧
    ((submitGradePatch g).certificateIssued = some true ↔ 70 ≤ g) ∧
    ((submitGradePatch g).certificateIssued = some false ↔ g < 70) ∧
    (submitGradePatch g).progress = none ∧
    (submitGradePatch g).status = none ∧
    (submitGradePatch g).completionDate = none ∧
    (submitGradePatch g).lastAccessedDate = none := by
  refine ⟨rfl, ?_, ?_, rfl, rfl, rfl, rfl⟩ <;>
    simp [submitGradePatch, decide_eq_true_iff, decide_eq_false_iff_not,
      not_le]

/-- Claim C9: `updateProgress` always patches the progress and the last
accessed date; at progress 100 it additionally sets status Completed
and a completion date, at a progress strictly between 0 and 100 it sets
status In Progress, and at progress 0 it includes no status field.
Symmetrically, `updateStatus` with status Completed also patches
progress 100 and a completion date, and with any other status it
patches only the status field. -/
theorem c9_progress_status_patches (now p : ℚ) (st : EnrollmentStatus) :
    (updateProgressPatch now p).progress = some p ∧
    (updateProgressPatch now p).lastAccessedDate = some now ∧
    (p = 100 → updateProgressPatch now p =
      { progress := some p, lastAccessedDate := some now
      , status := some EnrollmentStatus.completed
      , completionDate := some now }) ∧
    (0 < p → p < 100 → updateProgressPatch now p =
      { progress := some p, lastAccessedDate := some now
      , status := some EnrollmentStatus.inProgress }) ∧
    (p = 0 → updateProgressPatch now p =
      { progress := some p, lastAccessedDate := some now }) ∧
    (st = EnrollmentStatus.completed → updateStatusPatch now st =
      { status := some st, completionDate := some now
      , progress := some 100 }) ∧
    (st ≠ EnrollmentStatus.completed → updateStatusPatch now st =
      { status := some st }) := by
  refine ⟨?_, ?_, ?_, ?_, ?_, ?_, ?_⟩
  · unfold updateProgressPatch
    dsimp only
    split_ifs <;> rfl
  · unfold updateProgressPatch
    dsimp only
    split_ifs <;> rfl
  · intro h
    subst h
    norm_num [updateProgressPatch]
  · intro h0 h1
    have hne : p ≠ 100 := ne_of_lt h1
    simp [updateProgressPatch, hne, h0]
  · intro h
    subst h
    norm_num [updateProgressPatch]
  · intro h
    subst h
    simp [updateStatusPatch]
  · intro h
    simp [updateStatusPatch, h]

/-- Witness for C9: the theorem applied at progress 100, 50 and 0 and
at statuses Completed and Dropped, discharging each hypothesis at the
respective concrete input. -/
theorem c9_progress_status_patches_witness :
    updateProgressPatch 0 100 =
      { progress := some 100, lastAccessedDate := some 0
      , status := some EnrollmentStatus.completed
      , completionDate := some 0 } ∧
    updateProgressPatch 0 50 =
      { progress := some 50, lastAccessedDate := some 0
      , status := some EnrollmentStatus.inProgress } ∧
    updateProgressPatch 0 0 =
      { progress := some 0, lastAccessedDate := some 0 } ∧
    updateStatusPatch 0 EnrollmentStatus.completed =
      { status := some EnrollmentStatus.completed
      , completionDate := some 0, progress := some 100 } ∧
    updateStatusPatch 0 EnrollmentStatus.dropped =
      { status := some EnrollmentStatus.dropped } := by
  refine
    ⟨(c9_progress_status_patches 0 100 EnrollmentStatus.completed).2.2.1 rfl,
     (c9_progress_status_patches 0 50
       EnrollmentStatus.completed).2.2.2.1 (by norm_num) (by norm_num),
     (c9_progress_status_patches 0 0
       EnrollmentStatus.completed).2.2.2.2.1 rfl,
     (c9_progress_status_patches 0 0
       EnrollmentStatus.completed).2.2.2.2.2.1 rfl,
     (c9_progress_status_patches 0 0
       EnrollmentStatus.dropped).2.2.2.2.2.2 (by decide)⟩

/-- Counterexample to claim C8 as stated: with a zero previous value
and a negative current value the source returns -100, a case the
claimed description does not produce (its remaining branch is the ratio
formula, which does not evaluate to -100 there). -/
theorem c8_percent_change_counterexample :
    calculatePercentChange 0 (-1) = -100 ∧
    claimedPercentChange 0 (-1) = 0 ∧
    calculatePercentChange 0 (-1) ≠ claimedPercentChange 0 (-1) := by
  norm_num [calculatePercentChange, claimedPercentChange]

/-- Claim C8 as amended: the helpers are total — `calculatePercentChange`
returns 0 when both values are zero, 100 at a zero previous and
positive current, -100 at a zero previous and negative current, and
the ratio formula otherwise; `calculateRate` returns 0 whenever the
total is zero or negative and the rounded percentage otherwise. -/
theorem c8_percent_helpers_total (previous current part total : ℚ) :
    calculatePercentChange previous current =
      amendedPercentChange previous current ∧
    calculateRate part total =
      (if total ≤ 0 then 0 else jsRound ((part / total) * 100)) := by
  constructor
  · unfold calculatePercentChange amendedPercentChange
    by_cases hp : previous = 0
    · subst hp
      by_cases hc : (current : ℚ) = 0
      · simp [hc]
      · by_cases hpos : 0 < current
        · simp [hc, hpos]
        · have hneg : current < 0 := lt_of_le_of_ne (not_lt.mp hpos) hc
          simp [hc, hpos, hneg]
    · simp [hp]
  · unfold calculateRate
    by_cases ht : total ≤ 0
    · simp [ht]
    · simp [ht, (not_le.mp ht).ne.symm]

/-- Counterexample to claim C6 as stated: when the forkJoin feeding
`DashboardService.getDashboardStats` fails, the operation does not
propagate the failure — `catchError` replaces it by the empty
dashboard statistics (and logs). -/
theorem c6_dashboard_fallback_counterexample :
    dashboardCatch (fun n : ℕ => n + 1) 0 (Except.error "boom") =
      (Except.ok 0, true) ∧
    (dashboardCatch (fun n : ℕ => n + 1) 0 (Except.error "boom")).1 ≠
      Except.error (handleError "boom") := by
  exact ⟨rfl, fun h => Except.noConfusion h⟩

/-- Claim C6 as amended: a collection-service operation reacts to an
HTTP failure by logging, propagating the (message-defaulted) error and
leaving the cache unchanged, with the cache write running only on
success; the dashboard statistics operation instead logs and replaces
the failure by the empty statistics record. -/
theorem c6_error_handling {D ι σ : Type} (parse : String → D)
    (compute : ι → σ) (empty : σ) (m : String)
    (cache : List (StudentRec D)) :
    studentCreateStep parse (Except.error m) cache =
      { result := Except.error (handleError m), cache := cache
      , logged := true } ∧
    (∀ created, studentCreateStep parse (Except.ok created) cache =
      { result := Except.ok (transformStudent parse created)
      , cache := cache ++ [transformStudent parse created]
      , logged := false }) ∧
    dashboardCatch compute empty (Except.error m) =
      (Except.ok empty, true) ∧
    handleError "" = "Server error" := by
  exact ⟨rfl, fun _ => rfl, rfl, rfl⟩

theorem convertOptionalDate_eq_spec {D : Type} (parse : String → D)
    (x : Option (DS D)) :
    convertOptionalDate parse x = specConvertOptionalDate parse x := by
  cases x with
  | none => rfl
  | some v =>
    cases v with
    | str s =>
      by_cases hs : s = "" <;>
        simp [convertOptionalDate, specConvertOptionalDate, jsTruthyDS,
          jsIsStringDS, hs]
    | date d => rfl

/-- Counterexample to claim C7 as stated: a student record whose
`updatedAt` arrived as the empty string keeps the string — the guard
`x && typeof x === 'string'` is falsy on the empty string, so the field
is not converted into a structured date. -/
theorem c7_empty_string_counterexample :
    (transformStudent (fun _ => ()) c7Student).updatedAt =
      some (DS.str "") ∧
    (transformStudent (fun _ => ()) c7Student).updatedAt ≠
      some (DS.date ()) := by
  refine ⟨rfl, by decide⟩

/-- Claim C7 as amended: each transform converts its required date
field (`createdAt` of students and courses, `enrollmentDate` of
enrollments) whenever it arrives as a string, converts its optional
date fields (`updatedAt`, `dateOfBirth`, `completionDate`,
`lastAccessedDate`) whenever they arrive as non-empty strings while
leaving an empty string as it is, leaves already structured dates
as-is, and leaves every other field of the record unchanged. -/
theorem c7_transform_date_fields {D : Type} (parse : String → D)
    (s : StudentRec D) (c : CourseRec D) (e : EnrollmentRec D) :
    transformStudent parse s =
      { s with createdAt := convertRequiredDate parse s.createdAt
             , updatedAt := specConvertOptionalDate parse s.updatedAt
             , dateOfBirth := specConvertOptionalDate parse s.dateOfBirth } ∧
    transformCourse parse c =
      { c with createdAt := convertRequiredDate parse c.createdAt
             , updatedAt := specConvertOptionalDate parse c.updatedAt } ∧
    transformEnrollment parse e =
      { e with
        enrollmentDate := convertRequiredDate parse e.enrollmentDate
        completionDate := specConvertOptionalDate parse e.completionDate
        lastAccessedDate :=
          specConvertOptionalDate parse e.lastAccessedDate } ∧
    (∀ s0, convertRequiredDate parse (DS.str s0) = DS.date (parse s0)) ∧
    (∀ d, convertRequiredDate parse (DS.date d) = DS.date d) := by
  refine ⟨?_, ?_, ?_, fun _ => rfl, fun _ => rfl⟩ <;>
    simp [transformStudent, transformCourse, transformEnrollment,
      convertOptionalDate_eq_spec]

theorem foldl_add_map {α : Type} (f : α → ℚ) :
    ∀ (l : List α) (init : ℚ),
      l.foldl (fun sum e => sum + f e) init = init + (l.map f).sum := by
  intro l
  induction l with
  | nil => intro init; simp
  | cons x xs ih =>
    intro init
    simp [List.foldl_cons, ih, add_assoc]

theorem filterMap_grade (es : List Enrollment) :
    es.filterMap (fun e => e.grade) =
      (es.filter (fun e => e.grade.isSome)).map (fun e => e.grade.getD 0) := by
  induction es with
  | nil => rfl
  | cons e es ih =>
    cases hg : e.grade with
    | none => simp [List.filterMap_cons, List.filter_cons, hg, ih]
    | some g => simp [List.filterMap_cons, List.filter_cons, hg, ih]

theorem round2_zero : round2 0 = 0 := by
  norm_num [round2, jsRound]

/-- Claim C5: `getEnrollmentStats` returns the total count, the counts
of active (Enrolled or In Progress), Completed and Dropped enrollments,
the mean progress over all enrollments (0 when there are none), the
mean grade over the enrollments that carry a grade (0 when none do),
and the completion percentage (0 when there are no enrollments), the
three derived values rounded to two decimal places. -/
theorem c5_enrollment_stats (es : List Enrollment) :
    getEnrollmentStats es =
      { totalEnrollments := es.length
      , activeEnrollments := es.countP (fun e =>
          decide (e.status = EnrollmentStatus.enrolled ∨
            e.status = EnrollmentStatus.inProgress))
      , completedEnrollments := es.countP (fun e =>
          decide (e.status = EnrollmentStatus.completed))
      , droppedEnrollments := es.countP (fun e =>
          decide (e.status = EnrollmentStatus.dropped))
      , averageProgress := round2 (if es.length = 0 then 0
          else (es.map (fun e => e.progress)).sum / (es.length : ℚ))
      , averageGrade := round2
          (if (es.filterMap (fun e => e.grade)).length = 0 then 0
           else (es.filterMap (fun e => e.grade)).sum /
             ((es.filterMap (fun e => e.grade)).length : ℚ))
      , completionRate := if es.length = 0 then 0
          else round2
            (((es.countP (fun e =>
                decide (e.status = EnrollmentStatus.completed))) : ℚ) /
              (es.length : ℚ) * 100) } := by
  unfold getEnrollmentStats
  have hProg : es.foldl (fun sum e => sum + e.progress) 0 =
      (es.map (fun e => e.progress)).sum := by
    rw [foldl_add_map, zero_add]
  have hGraded : (es.filter (fun e => e.grade.isSome)).map
      (fun e => e.grade.getD 0) = es.filterMap (fun e => e.grade) :=
    (filterMap_grade es).symm
  have hGradeSum : (es.filter (fun e => e.grade.isSome)).foldl
      (fun sum e => sum + e.grade.getD 0) 0 =
        (es.filterMap (fun e => e.grade)).sum := by
    rw [foldl_add_map, zero_add, hGraded]
  have hGradeLen : (es.filter (fun e => e.grade.isSome)).length =
      (es.filterMap (fun e => e.grade)).length := by
    rw [← hGraded, List.length_map]
  refine EnrollmentStats.mk.injEq _ _ _ _ _ _ _ _ _ _ _ _ _ _ |>.mpr
    ⟨rfl, ?_, ?_, ?_, ?_, ?_, ?_⟩
  · simp [List.countP_eq_length_filter, Bool.decide_or]
  · simp [List.countP_eq_length_filter]
  · simp [List.countP_eq_length_filter]
  · rw [hProg]
    rcases Nat.eq_zero_or_pos es.length with h | h
    · simp [h]
    · simp [h, Nat.pos_iff_ne_zero.mp h]
  · rw [hGradeSum, hGradeLen]
    rcases Nat.eq_zero_or_pos (es.filterMap (fun e => e.grade)).length
      with h | h
    · simp [h]
    · simp [h, Nat.pos_iff_ne_zero.mp h]
  · rw [List.countP_eq_length_filter]
    rcases Nat.eq_zero_or_pos es.length with h | h
    · simp [h, round2_zero]
    · simp [h, Nat.pos_iff_ne_zero.mp h]

/-- Counterexample to claim C2 as stated: the cache write of a create
operation is not a wholesale overwrite with a fetched array — starting
from a cache holding the record 5 (the last fetched collection), a
created record 7 produces the cache [5, 7], which is neither the
previously fetched collection nor the transformed POST response. -/
theorem c2_cache_append_counterexample :
    createCacheUpdate (fun x : ℤ => x) [5] 7 = [5, 7] ∧
    ([5, 7] : List ℤ) ≠ [7] ∧
    ([5, 7] : List ℤ) ≠ [5] := by
  refine ⟨rfl, by decide, by decide⟩

theorem updateCacheUpdate_eq_replaceFirst {α : Type} (idOf : α → ℤ)
    (transform : α → α) (id : ℤ) (updated : α) :
    ∀ cache : List α,
      updateCacheUpdate idOf transform id cache updated =
        replaceFirstWith idOf id (transform updated) cache := by
  intro cache
  induction cache with
  | nil => rfl
  | cons x xs ih =>
    unfold updateCacheUpdate replaceFirstWith
    unfold updateCacheUpdate at ih
    rw [List.findIdx?_cons]
    by_cases h : idOf x = id
    · simp [h]
    · simp only [h, decide_False, if_false, ite_false]
      cases hfind : xs.findIdx? (fun y => decide (idOf y = id)) with
      | none =>
        rw [hfind] at ih
        simp [hfind, ← ih, h]
      | some i =>
        rw [hfind] at ih
        simp [hfind, ← ih, h, List.set_cons_succ]

/-- Claim C2 as amended: the caches follow exactly four write
patterns, shared by the three collection services — a load or refresh
overwrites the cache wholesale with the fetched, transformed
collection; a create appends the transformed created record; an update
or patch replaces the first cached record carrying the updated id
(leaving the cache unchanged when none does) and never changes the
cache length; a delete removes exactly the records carrying the
deleted id.  No other caching policy is applied. -/
theorem c2_cache_write_patterns {α : Type} (idOf : α → ℤ)
    (transform : α → α) (id : ℤ) (cache fetched : List α) (record : α) :
    loadCacheUpdate transform fetched = fetched.map transform ∧
    createCacheUpdate transform cache record = cache ++ [transform record] ∧
    updateCacheUpdate idOf transform id cache record =
      replaceFirstWith idOf id (transform record) cache ∧
    (updateCacheUpdate idOf transform id cache record).length =
      cache.length ∧
    deleteCacheUpdate idOf id cache =
      cache.filter (fun x => decide (idOf x ≠ id)) := by
  refine ⟨rfl, rfl, updateCacheUpdate_eq_replaceFirst idOf transform id
    record cache, ?_, rfl⟩
  unfold updateCacheUpdate
  cases hfind : cache.findIdx? (fun y => decide (idOf y = id)) with
  | none => rfl
  | some i => simp [List.length_set]

theorem trendForMonth_eq_spec (monthStart : ℤ → ℚ) (cs : List Course)
    (es : List Enrollment) (k : ℤ) :
    trendForMonth monthStart cs es k = specTrendForMonth monthStart cs es k := by
  have hf : es.filter (fun e =>
      decide (monthStart k ≤ e.enrollmentDate) &&
        decide (e.enrollmentDate < monthStart (k + 1))) =
      es.filter (fun e => decide (monthStart k ≤ e.enrollmentDate ∧
        e.enrollmentDate < monthStart (k + 1))) := by
    apply List.filter_congr
    intro e _
    simp [Bool.decide_and]
  unfold trendForMonth specTrendForMonth
  dsimp only
  rw [hf]
  refine EnrollmentTrend.mk.injEq _ _ _ _ _ _ _ _ |>.mpr
    ⟨rfl, ?_, ?_, ?_⟩
  · rw [List.countP_eq_length_filter]
  · rw [List.countP_eq_length_filter, List.filter_filter]
    apply congrArg List.length
    apply List.filter_congr
    intro e _
    simp [Bool.decide_and, Bool.and_comm, Bool.and_assoc, Bool.and_left_comm]
  · rw [foldl_add_map, zero_add]

/-- Claim C3: `calculateEnrollmentTrends` returns exactly six month
buckets in chronological order, the month five months before the
current month first and the current month last; each bucket counts
the enrollments dated on or after the first day of its month and
strictly before the first day of the next month, counts the Completed
ones among them, and sums their joined course prices (0 when no course
matches an enrollment), rounded to two decimal places. -/
theorem c3_enrollment_trends (monthStart : ℤ → ℚ) (m : ℤ)
    (es : List Enrollment) (cs : List Course) :
    calculateEnrollmentTrends monthStart m es cs =
      [specTrendForMonth monthStart cs es (m - 5),
       specTrendForMonth monthStart cs es (m - 4),
       specTrendForMonth monthStart cs es (m - 3),
       specTrendForMonth monthStart cs es (m - 2),
       specTrendForMonth monthStart cs es (m - 1),
       specTrendForMonth monthStart cs es m] ∧
    (calculateEnrollmentTrends monthStart m es cs).length = 6 := by
  have h6 : List.range 6 = [0, 1, 2, 3, 4, 5] := rfl
  constructor
  · unfold calculateEnrollmentTrends
    rw [h6]
    simp only [List.map_cons, List.map_nil, trendForMonth_eq_spec]
    norm_num
  · unfold calculateEnrollmentTrends
    rw [h6]
    rfl

theorem mem_categoriesFold (cs : List Course) :
    ∀ (acc : List String) (a : String),
      (a ∈ cs.foldl (fun acc c =>
        if c.category ∈ acc then acc else acc ++ [c.category]) acc) ↔
        (a ∈ acc ∨ a ∈ cs.map (fun c => c.category)) := by
  induction cs with
  | nil =>
    intro acc a
    simp
  | cons c cs ih =>
    intro acc a
    rw [List.foldl_cons]
    by_cases h : c.category ∈ acc
    · rw [if_pos h, ih]
      simp only [List.map_cons, List.mem_cons]
      constructor
      · rintro (ha | ha)
        · exact Or.inl ha
        · exact Or.inr (Or.inr ha)
      · rintro (ha | rfl | ha)
        · exact Or.inl ha
        · exact Or.inl h
        · exact Or.inr ha
    · rw [if_neg h, ih]
      simp only [List.mem_append, List.map_cons, List.mem_cons,
        List.mem_singleton]
      tauto

theorem mem_categoriesInOrder (cs : List Course) (a : String) :
    a ∈ categoriesInOrder cs ↔ a ∈ cs.map (fun c => c.category) := by
  unfold categoriesInOrder
  rw [mem_categoriesFold]
  simp

theorem categoriesInOrder_append (p : List Course) (c : Course) :
    categoriesInOrder (p ++ [c]) =
      if c.category ∈ categoriesInOrder p then categoriesInOrder p
      else categoriesInOrder p ++ [c.category] := by
  unfold categoriesInOrder
  rw [List.foldl_append]
  rfl

theorem specCategoryStats_append (p : List Course) (c : Course)
    (es : List Enrollment) (cat : String) :
    specCategoryStats (p ++ [c]) es cat =
      if cat = c.category then
        { specCategoryStats p es cat with
          courseCount := (specCategoryStats p es cat).courseCount + 1
          enrollmentCount := (specCategoryStats p es cat).enrollmentCount +
            enrollCountFor es c.id
          revenue := (specCategoryStats p es cat).revenue +
            c.price * (enrollCountFor es c.id : ℚ) }
      else specCategoryStats p es cat := by
  unfold specCategoryStats
  dsimp only
  by_cases h : cat = c.category
  · have hc : (decide (c.category = cat)) = true := by simp [h]
    rw [if_pos h, List.filter_append]
    simp [hc]
  · have hc : (decide (c.category = cat)) = false := by
      simp
      exact fun hh => h hh.symm
    rw [if_neg h, List.filter_append]
    simp [hc]

theorem categoryFold_eq_spec (es : List Enrollment) (cs : List Course) :
    cs.foldl (categoryStep es) [] =
      (categoriesInOrder cs).map (specCategoryStats cs es) := by
  induction cs using List.reverseRecOn with
  | nil => rfl
  | append_singleton p c ih =>
    rw [List.foldl_append, List.foldl_cons, List.foldl_nil, ih,
      categoriesInOrder_append]
    unfold categoryStep
    dsimp only
    by_cases hmem : c.category ∈ categoriesInOrder p
    · rw [if_pos hmem]
      have hany : (((categoriesInOrder p).map (specCategoryStats p es)).any
          (fun s => decide (s.category = c.category))) = true := by
        rw [List.any_eq_true]
        exact ⟨specCategoryStats p es c.category,
          List.mem_map_of_mem _ hmem, decide_eq_true rfl⟩
      rw [hany, if_pos rfl, List.map_map]
      apply List.map_congr_left
      intro cat hcat
      simp only [Function.comp]
      rw [specCategoryStats_append]
      by_cases hc : cat = c.category
      · have hfield : (specCategoryStats p es cat).category = c.category := hc
        rw [if_pos hfield, if_pos hc]
        simp [mul_comm]
      · have hfield : ¬(specCategoryStats p es cat).category = c.category := hc
        rw [if_neg hfield, if_neg hc]
    · rw [if_neg hmem]
      have hany : (((categoriesInOrder p).map (specCategoryStats p es)).any
          (fun s => decide (s.category = c.category))) = false := by
        rw [List.any_eq_false]
        intro s hs
        obtain ⟨cat, hcat, rfl⟩ := List.mem_map.mp hs
        simp only [decide_eq_true_eq]
        intro h
        exact hmem (h ▸ hcat)
      rw [hany, if_neg (by simp), List.map_append]
      congr 1
      · apply List.map_congr_left
        intro cat hcat
        have hne : cat ≠ c.category := fun h => hmem (h ▸ hcat)
        rw [specCategoryStats_append, if_neg hne]
      · have hnone : p.filter (fun x => decide (x.category = c.category)) =
            [] := by
          rw [List.filter_eq_nil_iff]
          intro x hx
          simp only [decide_eq_true_eq]
          intro h
          exact hmem ((mem_categoriesInOrder p c.category).mpr
            (by rw [← h]; exact List.mem_map_of_mem _ hx))
        simp [specCategoryStats, List.filter_append, hnone, mul_comm]

theorem mem_insertByEnrollmentsDesc {z x : CategoryStats} :
    ∀ {l : List CategoryStats},
      z ∈ insertByEnrollmentsDesc x l → z = x ∨ z ∈ l := by
  intro l
  induction l with
  | nil =>
    intro h
    simp [insertByEnrollmentsDesc] at h
    exact Or.inl h
  | cons y ys ih =>
    intro h
    unfold insertByEnrollmentsDesc at h
    by_cases hc : y.enrollmentCount < x.enrollmentCount
    · rw [if_pos hc] at h
      rcases List.mem_cons.mp h with h1 | h2
      · exact Or.inl h1
      · exact Or.inr h2
    · rw [if_neg hc] at h
      rcases List.mem_cons.mp h with h1 | h2
      · exact Or.inr (h1 ▸ List.mem_cons_self y ys)
      · rcases ih h2 with h3 | h4
        · exact Or.inl h3
        · exact Or.inr (List.mem_cons_of_mem y h4)

theorem pairwise_insertByEnrollmentsDesc {x : CategoryStats} :
    ∀ {l : List CategoryStats},
      l.Pairwise (fun a b => b.enrollmentCount ≤ a.enrollmentCount) →
      (insertByEnrollmentsDesc x l).Pairwise
        (fun a b => b.enrollmentCount ≤ a.enrollmentCount) := by
  intro l
  induction l with
  | nil =>
    intro _
    simp [insertByEnrollmentsDesc]
  | cons y ys ih =>
    intro hp
    rcases List.pairwise_cons.mp hp with ⟨hy, hys⟩
    unfold insertByEnrollmentsDesc
    by_cases hc : y.enrollmentCount < x.enrollmentCount
    · rw [if_pos hc]
      refine List.pairwise_cons.mpr ⟨?_, hp⟩
      intro z hz
      rcases List.mem_cons.mp hz with rfl | hz2
      · exact le_of_lt hc
      · exact le_trans (hy z hz2) (le_of_lt hc)
    · rw [if_neg hc]
      refine List.pairwise_cons.mpr ⟨?_, ih hys⟩
      intro z hz
      rcases mem_insertByEnrollmentsDesc hz with rfl | hz2
      · exact not_lt.mp hc
      · exact hy z hz2

theorem pairwise_sortFold :
    ∀ (l acc : List CategoryStats),
      acc.Pairwise (fun a b => b.enrollmentCount ≤ a.enrollmentCount) →
      (l.foldl (fun acc x => insertByEnrollmentsDesc x acc) acc).Pairwise
        (fun a b => b.enrollmentCount ≤ a.enrollmentCount) := by
  intro l
  induction l with
  | nil =>
    intro acc h
    simpa using h
  | cons x xs ih =>
    intro acc h
    rw [List.foldl_cons]
    exact ih _ (pairwise_insertByEnrollmentsDesc h)

theorem sortByEnrollmentsDesc_pairwise (l : List CategoryStats) :
    (sortByEnrollmentsDesc l).Pairwise
      (fun a b => b.enrollmentCount ≤ a.enrollmentCount) :=
  pairwise_sortFold l [] List.Pairwise.nil

/-- Counterexample to claim C4 as stated: with two courses that share
one id and one category and a single enrollment referencing that id,
the code reports an `enrollmentCount` of 2 for the category — the
enrollment is counted once per matching course — while the number of
enrollments whose courseId equals the id of some course of the
category is 1. -/
theorem c4_per_course_counting_counterexample :
    ((calculateCategoryDistribution [c4Course, c4Course]
      [c4Enrollment]).map
        (fun s => (s.category, s.courseCount, s.enrollmentCount))) =
      [("Data Science", 2, 2)] ∧
    ([c4Enrollment].countP (fun e => decide (∃ c ∈ [c4Course, c4Course],
      c.category = "Data Science" ∧ c.id = e.courseId))) = 1 ∧
    (2 : ℕ) ≠ 1 := by
  refine ⟨by decide, by decide, by decide⟩

/-- Claim C4 as amended: `calculateCategoryDistribution` returns one
record per distinct category occurring among the courses, in which
`courseCount` is the number of courses of the category, and
`enrollmentCount` and `revenue` are per-course sums over the courses of
the category — of the number of enrollments referencing the course,
and of the course price times that number (rounded to two decimal
places) — so an enrollment is counted once per course carrying its
courseId; the list is sorted by decreasing `enrollmentCount` (stably,
ties keeping first-occurrence category order). -/
theorem c4_category_distribution (cs : List Course) (es : List Enrollment) :
    calculateCategoryDistribution cs es =
      (sortByEnrollmentsDesc ((categoriesInOrder cs).map
        (specCategoryStats cs es))).map
          (fun s => { s with revenue := round2 s.revenue }) ∧
    (calculateCategoryDistribution cs es).Pairwise
      (fun a b => b.enrollmentCount ≤ a.enrollmentCount) := by
  constructor
  · unfold calculateCategoryDistribution
    rw [categoryFold_eq_spec]
  · unfold calculateCategoryDistribution
    rw [List.pairwise_map]
    exact sortByEnrollmentsDesc_pairwise _

end OCMS
